import Mathlib

/- Verification development for the Termux WebSocket bridge service
   (bridgeservice.py).  The protocol data model, the message dispatcher,
   the SMS handler, the inbox poll cycle, the USSD automation sequence and
   the percent-encoding helper are embedded shallowly below.  External
   calls (adb client, local subprocesses, file reads, uiautomator2) are
   resolved by a World of oracles indexed by a running call counter; each
   oracle yields a pair (raised, value): when the flag is true the call
   raised an exception whose text is the string, otherwise the string is
   the returned output.  Restrictions of the model, matching the wire
   protocol of the service: the sim field of an envelope is an integer or
   null, the code field a string, and the data field, when present, a
   JSON object; string escaping inside the json.dumps rendering is
   elided. -/

set_option maxHeartbeats 4000000

namespace BridgeService

/-- JSON scalar values appearing in protocol envelopes and inbox records. -/
inductive Val where
  | vnull : Val
  | vstr : String → Val
  | vint : Int → Val
deriving DecidableEq

/-- Python truthiness of a scalar: null, the empty string and 0 are falsy. -/
def truthy : Val → Bool
  | .vnull => false
  | .vstr s => !(s == "")
  | .vint n => !(n == 0)

/-- A JSON object (Python dict) as an association list with distinct keys. -/
abbrev Dict := List (String × Val)

/-- Python dict.get(k): the binding of k, if any. -/
def dget (d : Dict) (k : String) : Option Val :=
  match d.find? (fun p => p.1 == k) with
  | some p => some p.2
  | none => none

/-- Python dict.get(k, default). -/
def dgetD (d : Dict) (k : String) (v : Val) : Val := (dget d k).getD v

/-- Rendering of a scalar the way json.dumps renders it (escaping elided). -/
def dumpsVal : Val → String
  | .vnull => "null"
  | .vstr s => "\"" ++ s ++ "\""
  | .vint n => toString n

/-- json.dumps of a record, with the default separators of the json module. -/
def dumps (d : Dict) : String :=
  "\x7b" ++ String.intercalate ", " (d.map (fun p => "\"" ++ p.1 ++ "\": " ++ dumpsVal p.2)) ++ "\x7d"

/-- Python (x or y) where x is an optional lookup result: y when x is missing or falsy. -/
def pyOr (a : Option Val) (b : Val) : Val :=
  match a with
  | some v => if truthy v then v else b
  | none => b

/-- Identifier of an inbox record, as computed in SMSHandler.poll_loop:
m.get(id) or m.get(date) or m.get(timestamp) or json.dumps(m). -/
def midOf (m : Dict) : Val :=
  pyOr (dget m "id") (pyOr (dget m "date") (pyOr (dget m "timestamp") (.vstr (dumps m))))

/-- First loop of SMSHandler.poll_loop: walk the listed records in order,
collect those whose identifier is not yet seen, adding each fresh identifier
to the seen set as it is met.  The Python set is modelled as a list in
insertion order (one fixed resolution of the unspecified set iteration
order). -/
def collectNew : List Val → List Dict → List Dict × List Val
  | seen, [] => ([], seen)
  | seen, m :: rest =>
    let mid := midOf m
    if mid ∈ seen then collectNew seen rest
    else
      let r := collectNew (seen ++ [mid]) rest
      (m :: r.1, r.2)

/-- Size threshold above which poll_loop evicts seen identifiers. -/
def seenCeiling : Nat := 2000

/-- Number of identifiers retained by an eviction pass. -/
def seenKeep : Nat := 1000

/-- One cycle of SMSHandler.poll_loop over the listed inbox records: the
emitted sms_received events are the freshly collected records in reversed
order; afterwards, when the seen set holds more than 2000 identifiers it is
cut down to the last 1000 of them. -/
def pollCycle (seen : List Val) (msgs : List Dict) : List Dict × List Val :=
  let r := collectNew seen msgs
  let events := r.1.reverse
  let seen2 := if seenCeiling < r.2.length then r.2.drop (r.2.length - seenKeep) else r.2
  (events, seen2)

/-- Bytes urllib.parse.quote never escapes (letters, digits, underscore,
dot, hyphen, tilde); with safe set to the empty string everything else is
escaped. -/
def isSafeByte (b : Nat) : Bool :=
  (65 ≤ b && b ≤ 90) || (97 ≤ b && b ≤ 122) || (48 ≤ b && b ≤ 57) ||
  b == 95 || b == 46 || b == 45 || b == 126

/-- Uppercase hexadecimal digit of a nibble, as quote produces it. -/
def hexDigitU (n : Nat) : Nat := if n < 10 then 48 + n else 55 + n

/-- urllib.parse.quote(code, safe set empty) over the UTF-8 bytes of the code. -/
def quoteBytes : List Nat → List Nat
  | [] => []
  | b :: bs =>
    (if isSafeByte b then [b] else [37, hexDigitU (b / 16), hexDigitU (b % 16)]) ++ quoteBytes bs

/-- Value of a hexadecimal digit byte, if it is one. -/
def hexVal (c : Nat) : Option Nat :=
  if 48 ≤ c && c ≤ 57 then some (c - 48)
  else if 65 ≤ c && c ≤ 70 then some (c - 55)
  else if 97 ≤ c && c ≤ 102 then some (c - 87)
  else none

/-- urllib.parse.unquote at the byte level: a percent byte followed by two
hexadecimal digits decodes to one byte; an invalid escape is kept literally. -/
def unquoteBytes : List Nat → List Nat
  | [] => []
  | 37 :: c1 :: c2 :: rest2 =>
    match hexVal c1, hexVal c2 with
    | some h, some l => (16 * h + l) :: unquoteBytes rest2
    | _, _ => 37 :: unquoteBytes (c1 :: c2 :: rest2)
  | c :: rest => c :: unquoteBytes rest

/-- The _encode_ussd helper: urllib.parse.quote of the code with an empty
safe set, over its UTF-8 bytes. -/
def _encode_ussd (code : String) : String :=
  String.mk ((quoteBytes (code.toUTF8.toList.map (fun b => b.toNat))).map Char.ofNat)

/-- Attributes of one node of a dumped UI hierarchy, as read by the source
through attrib.get. -/
structure UNode where
  cls : Option String
  text : Option String
  contentDesc : Option String
  bounds : Option String
deriving DecidableEq

/-- One primitive external interaction, recorded in the trace. -/
inductive ExtCall where
  | cshell (cmd : String)
  | lrun (cmd : String)
  | cpull (remote loc : String)
  | fread (path : String)
  | u2op
deriving DecidableEq

/-- Call counter and trace of external interactions. -/
structure St where
  k : Nat
  tr : List ExtCall
deriving DecidableEq

/-- Environment fixing the outcome of every external call.  Oracles taking
the call counter return (raised, value) pairs; parseXml models
ElementTree.fromstring, none meaning the parse raised. -/
structure World where
  clientPresent : Bool
  u2Available : Bool
  clientShell : Nat → String → Bool × String
  clientPull : Nat → Bool
  localRun : Nat → String → Bool × String
  readFile : Nat → String → Bool × String
  parseXml : String → Option (List UNode)
  u2ConnectRaises : Nat → Bool
  u2Exists : Nat → String → Bool × Bool
  u2ClickRaises : Nat → String → Bool
  u2BtnExists : Nat → Bool × Bool
  u2BtnCount : Nat → Bool × Nat
  u2BtnClickRaises : Nat → Nat → Bool
  u2Dump : Nat → Bool × String

/-- Advance the call counter and record one interaction. -/
def bump (s : St) (e : ExtCall) : St := ⟨s.k + 1, s.tr ++ [e]⟩

/-- run_local: spawn a local shell command; spawning may raise. -/
def run_local (w : World) (s : St) (cmd : String) : (Bool × String) × St :=
  (w.localRun s.k cmd, bump s (.lrun cmd))

/-- AdbWrapper.shell: the adbutils client is tried first and its exception
swallowed; then adb shell through run_local, whose exception propagates.
A falsy output is returned as the empty string, which coincides with the
output itself. -/
def adbShell (w : World) (s : St) (cmd : String) : (Bool × String) × St :=
  if w.clientPresent then
    let r := w.clientShell s.k cmd
    let s1 := bump s (.cshell cmd)
    if r.1 then run_local w s1 ("adb shell " ++ cmd)
    else ((false, r.2), s1)
  else run_local w s ("adb shell " ++ cmd)

/-- AdbWrapper.pull: the adbutils client is tried first and its exception
swallowed; then adb pull through run_local, whose exception propagates. -/
def adbPull (w : World) (s : St) (remote loc : String) : Bool × St :=
  if w.clientPresent then
    let r := w.clientPull s.k
    let s1 := bump s (.cpull remote loc)
    if r then
      let q := run_local w s1 ("adb pull " ++ remote ++ " " ++ loc)
      (q.1.1, q.2)
    else (false, s1)
  else
    let q := run_local w s ("adb pull " ++ remote ++ " " ++ loc)
    (q.1.1, q.2)

/-- open(path).read() of a pulled file; may raise. -/
def readLocalFile (w : World) (s : St) (path : String) : (Bool × String) × St :=
  (w.readFile s.k path, bump s (.fread path))

/-- Whether the pattern list is a prefix of the list. -/
def headMatches : List Char → List Char → Bool
  | [], _ => true
  | _ :: _, [] => false
  | a :: as, b :: bs => a == b && headMatches as bs

/-- Whether the pattern occurs contiguously in the list. -/
def hasSub (pat : List Char) : List Char → Bool
  | [] => pat.isEmpty
  | l@(_ :: rest) => headMatches pat l || hasSub pat rest

/-- The Python in operator on strings. -/
def strContains (s pat : String) : Bool := hasSub pat.toList s.toList

/-- Python (a or b or the empty string) over optional attribute strings. -/
def pyOrStr (a b : Option String) : String :=
  let x := a.getD ""
  if x == "" then b.getD "" else x

/-- Candidate (text, bounds) extraction of the dump-based chooser
resolution: nodes with bounds and a Button or TextView class or a
nonempty stripped label. -/
def candidatesOf (nodes : List UNode) : List (String × String) :=
  nodes.filterMap (fun n =>
    let cls := n.cls.getD ""
    let text := (pyOrStr n.text n.contentDesc).trim
    let bounds := n.bounds.getD ""
    if bounds ≠ "" ∧ (strContains cls "Button" ∨ strContains cls "TextView" ∨ text ≠ "") then
      some (text, bounds)
    else none)

/-- The sim_targets label list of the dump-based resolution. -/
def sim_targets : List String :=
  ["SIM 1", "SIM 2", "SIM1", "SIM2", "SIM 1", "SIM 2", "Pilih SIM", "Pilih kartu",
   "kartu SIM 1", "kartu SIM 2", "Kartu 1", "Kartu 2"]

/-- Label scan over the candidates: the first candidate with a nonempty
label containing any sim target (lowercased) is selected; both inner
branches of the source select the same bounds.  Evaluating str(sim+1)
raises a TypeError when sim is None, modelled by the error case. -/
def findTarget (sim : Option Int) : List (String × String) → Except Unit (Option String)
  | [] => .ok none
  | (text, bounds) :: rest =>
    if text == "" then findTarget sim rest
    else
      let tlow := text.toLower
      if sim_targets.any (fun st => strContains tlow st.toLower) then
        match sim with
        | none => .error ()
        | some _ => .ok (some bounds)
      else findTarget sim rest

/-- Python list indexing, with negative indices; none models an IndexError. -/
def pyIdx {α : Type} (l : List α) (i : Int) : Option α :=
  if 0 ≤ i then l.get? i.toNat
  else if (-i).toNat ≤ l.length then l.get? (l.length - (-i).toNat) else none

/-- Target selection of one resolution attempt: the label scan, then the
ordinal pick among candidates with a nonempty label (index = requested
slot when in range, 0 otherwise); comparing None with an int raises. -/
def pickTarget (sim : Option Int) (cands : List (String × String)) : Except Unit (Option String) :=
  match findTarget sim cands with
  | .error e => .error e
  | .ok (some b) => .ok (some b)
  | .ok none =>
    if cands.isEmpty then .ok none
    else
      let nonempty := cands.filter (fun c => !(c.1 == ""))
      if nonempty.isEmpty then .ok none
      else
        match sim with
        | none => .error ()
        | some si =>
          let idx : Int := if si < (nonempty.length : Int) then si else 0
          match pyIdx nonempty idx with
          | none => .error ()
          | some c => .ok (some c.2)

/-- Digits of a decimal numeral to a number. -/
def digitsToNat (ds : List Char) : Nat := ds.foldl (fun a c => a * 10 + (c.toNat - 48)) 0

/-- Scan one integer token: an optional minus then one or more digits. -/
def scanInt : List Char → Option (Int × List Char)
  | [] => none
  | c :: cs =>
    if c == '-' then
      match cs.takeWhile Char.isDigit, cs.dropWhile Char.isDigit with
      | [], _ => none
      | ds, rest => some (-(Int.ofNat (digitsToNat ds)), rest)
    else
      match (c :: cs).takeWhile Char.isDigit, (c :: cs).dropWhile Char.isDigit with
      | [], _ => none
      | ds, rest => some (Int.ofNat (digitsToNat ds), rest)

/-- Match one bracketed integer pair at the head of the list, as one match
of the findall pattern over bounds strings. -/
def matchPairAt (l : List Char) : Option (Int × Int × List Char) :=
  match l with
  | '[' :: r1 =>
    match scanInt r1 with
    | none => none
    | some (a, r2) =>
      match r2 with
      | ',' :: r3 =>
        match scanInt r3 with
        | none => none
        | some (b, r4) =>
          match r4 with
          | ']' :: r5 => some (a, b, r5)
          | _ => none
      | _ => none
  | _ => none

/-- Leftmost non-overlapping scan for bracketed pairs; the fuel is the
length of the input, enough since every step consumes at least one char. -/
def findPairsAux : Nat → List Char → List (Int × Int)
  | 0, _ => []
  | _ + 1, [] => []
  | fuel + 1, l@(_ :: rest) =>
    match matchPairAt l with
    | some (a, b, r) => (a, b) :: findPairsAux fuel r
    | none => findPairsAux fuel rest

/-- re.findall of the coordinate pair pattern over a bounds string. -/
def findPairs (s : String) : List (Int × Int) :=
  findPairsAux s.length s.toList

/-- Text blocks harvested from a dumped hierarchy: the stripped label of
every node whose label is truthy and longer than 3 once stripped. -/
def textsOf (nodes : List UNode) : List String :=
  nodes.filterMap (fun n =>
    let txt := pyOrStr n.text n.contentDesc
    if txt ≠ "" ∧ 3 < txt.trim.length then some txt.trim else none)

/-- max(texts, key=len): the first element of maximal length. -/
def maxByLen : List String → Option String
  | [] => none
  | t :: ts => some (ts.foldl (fun acc x => if acc.length < x.length then x else acc) t)

/-- The uiautomator dump command of the fallback path. -/
def dumpCmd : String := "uiautomator dump /sdcard/ussd_dump.xml"

/-- Local path the dump is pulled to. -/
def localTmp : String := "/data/data/com.termux/files/home/bridgeservice/ussd_dump.xml"

/-- The pull-and-read of a dumped hierarchy with its cat fallback: when the
pull or the local read raises, the file is read through adb shell cat,
whose own exception propagates to the surrounding handler. -/
def getXmlText (w : World) (s : St) : (Bool × String) × St :=
  let p := adbPull w s "/sdcard/ussd_dump.xml" localTmp
  if p.1 then adbShell w p.2 "cat /sdcard/ussd_dump.xml"
  else
    let rres := readLocalFile w p.2 localTmp
    if rres.1.1 then adbShell w rres.2 "cat /sdcard/ussd_dump.xml"
    else rres

/-- One iteration of the chooser-resolution retry loop of the fallback
path: dump, fetch, parse, select a target, tap its center.  Returns
(tapped, raw_ui, state); every exception of the iteration is swallowed by
the surrounding handlers of the source, leaving tapped false. -/
def resolveAttempt (w : World) (sim : Option Int) (s : St) (raw : Option String) :
    Bool × Option String × St :=
  let d := adbShell w s dumpCmd
  if d.1.1 then (false, raw, d.2)
  else
    let x := getXmlText w d.2
    if x.1.1 then (false, raw, x.2)
    else
      let xml := x.1.2
      match w.parseXml xml with
      | none => (false, some xml, x.2)
      | some nodes =>
        match pickTarget sim (candidatesOf nodes) with
        | .error _ => (false, some xml, x.2)
        | .ok none => (false, some xml, x.2)
        | .ok (some tb) =>
          match findPairs tb with
          | (l, t) :: (r, b) :: _ =>
            let cx := (l + r).fdiv 2
            let cy := (t + b).fdiv 2
            let tap := adbShell w x.2 ("input tap " ++ toString cx ++ " " ++ toString cy)
            if tap.1.1 then (false, some xml, tap.2)
            else (true, some xml, tap.2)
          | _ => (false, some xml, x.2)

/-- The resolution retry loop, invoked with 4 attempts; it stops early
only when a tap was issued. -/
def resolveLoop (w : World) (sim : Option Int) : Nat → St → Option String → Bool × Option String × St
  | 0, s, raw => (false, raw, s)
  | n + 1, s, raw =>
    let a := resolveAttempt w sim s raw
    if a.1 then a
    else resolveLoop w sim n a.2.2 a.2.1

/-- The final response capture of the fallback path: one more dump, fetch
and parse, extracting the longest harvested text block. -/
def finalCapture (w : World) (s : St) (raw : Option String) :
    (Option String × Option String) × St :=
  let d := adbShell w s dumpCmd
  if d.1.1 then ((raw, none), d.2)
  else
    let x := getXmlText w d.2
    if x.1.1 then ((raw, none), x.2)
    else
      let xml := x.1.2
      match w.parseXml xml with
      | none => ((some xml, none), x.2)
      | some nodes => ((some xml, maxByLen (textsOf nodes)), x.2)

/-- The sim_labels list of the structured (uiautomator2) path. -/
def sim_labels : List String :=
  ["SIM 1", "SIM 2", "SIM1", "SIM2", "Use SIM 1", "Use SIM 2", "Pilih SIM", "Pilih kartu",
   "Kartu 1", "Kartu 2", "Call with SIM 1", "Call with SIM 2",
   "Panggil dengan SIM 1", "Panggil dengan SIM 2"]

/-- Structured-query label loop: the first label whose element exists and
whose click does not raise wins; every exception is swallowed per label. -/
def u2LabelLoop (w : World) : List String → St → Bool × St
  | [], s => (false, s)
  | lbl :: rest, s =>
    let e := w.u2Exists s.k lbl
    let s1 := bump s .u2op
    if e.1 then u2LabelLoop w rest s1
    else if e.2 then
      let cr := w.u2ClickRaises s1.k lbl
      let s2 := bump s1 .u2op
      if cr then u2LabelLoop w rest s2
      else (true, s2)
    else u2LabelLoop w rest s1

/-- Ordinal button fallback of the structured path; the count is queried
lazily, only when the requested slot is nonzero. -/
def u2ButtonBlock (w : World) (s : St) (simIndex : Int) : Bool × St :=
  let e := w.u2BtnExists s.k
  let s1 := bump s .u2op
  if e.1 then (false, s1)
  else if e.2 then
    if simIndex == 0 then
      let cr := w.u2BtnClickRaises s1.k 0
      let s2 := bump s1 .u2op
      (!cr, s2)
    else
      let c := w.u2BtnCount s1.k
      let s2 := bump s1 .u2op
      if c.1 then (false, s2)
      else
        let idx : Nat := if 1 < c.2 then 1 else 0
        let cr := w.u2BtnClickRaises s2.k idx
        let s3 := bump s2 .u2op
        (!cr, s3)
  else (false, s1)

/-- The uiautomator2 branch of send_ussd_and_read: connect, resolve the
chooser, wait, dump and harvest.  Returns none when the branch raised (at
connect or at the dump), handing control to the dump-based fallback. -/
def u2Path (w : World) (s : St) (simIndex : Int) : Option (Option String × Option String) × St :=
  let cr := w.u2ConnectRaises s.k
  let s1 := bump s .u2op
  if cr then (none, s1)
  else
    let lab := u2LabelLoop w sim_labels s1
    let chosen :=
      if lab.1 then (true, lab.2)
      else u2ButtonBlock w lab.2 simIndex
    let dmp := w.u2Dump chosen.2.k
    let s4 := bump chosen.2 .u2op
    if dmp.1 then (none, s4)
    else
      match w.parseXml dmp.2 with
      | none => (some (some dmp.2, none), s4)
      | some nodes => (some (some dmp.2, maxByLen (textsOf nodes)), s4)

/-- The result record of send_ussd_and_read. -/
structure UssdResult where
  ok : Bool
  error : Option String
  raw_ui : Option String
  ussd_text : Option String
deriving DecidableEq

/-- The dial loop over the three intent variants: every variant is issued,
per-variant exceptions are swallowed, and dialed records whether any
variant was issued without raising. -/
def dialLoop (w : World) : List String → St → Bool → Bool × St
  | [], s, d => (d, s)
  | it :: rest, s, d =>
    let r := adbShell w s it
    dialLoop w rest r.2 (d || !r.1.1)

/-- First dial intent variant: the plain CALL intent on the encoded code. -/
def ussdIntent1 (c : String) : String :=
  "am start -a android.intent.action.CALL -d tel:" ++ _encode_ussd c

/-- Second dial intent variant, carrying the telecom slot extra. -/
def ussdIntent2 (c : String) (sim : Option Int) : String :=
  "am start -a android.intent.action.CALL -d tel:" ++ _encode_ussd c ++
  " --ei android.telecom.extra.SIM_SLOT_INDEX " ++ toString (sim.getD 0)

/-- Third dial intent variant, carrying the vendor slot extras. -/
def ussdIntent3 (c : String) (sim : Option Int) : String :=
  "am start -a android.intent.action.CALL -d tel:" ++ _encode_ussd c ++
  " --ei simSlot " ++ toString (sim.getD 0) ++ " --ei subscription " ++ toString (sim.getD 0) ++
  " --ei com.android.phone.extra.slot " ++ toString (sim.getD 0)

/-- send_ussd_and_read: refuse an empty or missing code before any device
call; dial through the three intent variants; then either the structured
uiautomator2 path (when available and not raising) or the dump-based
fallback of four resolution attempts followed by the final capture.  The
result is ok unless the code was empty or no dial intent could be
issued. -/
def send_ussd_and_read (w : World) (s : St) (code : Option String) (sim : Option Int) :
    UssdResult × St :=
  match code with
  | none => (⟨false, some "empty code", none, none⟩, s)
  | some c =>
    if c == "" then (⟨false, some "empty code", none, none⟩, s)
    else
      let sim_index : Int := sim.getD 0
      let intents : List String := [ussdIntent1 c, ussdIntent2 c sim, ussdIntent3 c sim]
      let dial := dialLoop w intents s false
      if !dial.1 then (⟨false, some "failed to send dial intent", none, none⟩, dial.2)
      else
        let su := if w.u2Available then u2Path w dial.2 sim_index else (none, dial.2)
        match su.1 with
        | some ru => (⟨true, none, ru.1, ru.2⟩, su.2)
        | none =>
          let res := resolveLoop w sim 4 su.2 none
          let fc := finalCapture w res.2.2 res.2.1
          (⟨true, none, fc.1.1, fc.1.2⟩, fc.2)

/-- Python str() of an optional field value inside an f-string. -/
def pyStr : Option Val → String
  | none => "None"
  | some .vnull => "None"
  | some (.vstr s) => s
  | some (.vint n) => toString n

/-- int(sim) if sim is not None else 0.  The wire protocol types sim as an
integer; a non-numeric string would raise in the source and lies outside
the modelled protocol, mapped to 0 here. -/
def asSimIdx : Val → Int
  | .vnull => 0
  | .vint n => n
  | .vstr _ => 0

/-- The sim argument handed to send_ussd_and_read: null stays None; the
protocol types sim as an integer, a string is outside the modelled
protocol and mapped to 0. -/
def asSimOpt : Val → Option Int
  | .vnull => none
  | .vint n => some n
  | .vstr _ => some 0

/-- First SENDTO intent variant of SMSHandler.send_sms. -/
def smsIntent1 (number text : Option Val) (sim : Val) : String :=
  "am start -a android.intent.action.SENDTO -d sms:" ++ pyStr number ++
  " --es sms_body \"" ++ pyStr text ++ "\"" ++
  " --ei android.telecom.extra.SIM_SLOT_INDEX " ++ toString (asSimIdx sim)

/-- Second SENDTO intent variant of SMSHandler.send_sms. -/
def smsIntent2 (number text : Option Val) (sim : Val) : String :=
  "am start -a android.intent.action.SENDTO -d sms:" ++ pyStr number ++
  " --es sms_body \"" ++ pyStr text ++ "\"" ++
  " --ei simSlot " ++ toString (asSimIdx sim) ++ " --ei subscription " ++ toString (asSimIdx sim) ++
  " --ei com.android.phone.extra.slot " ++ toString (asSimIdx sim)

/-- The termux-sms-send fallback command of SMSHandler.send_sms. -/
def termuxSendCmd (number text : Option Val) : String :=
  "termux-sms-send -n " ++ pyStr number ++ " \"" ++ pyStr text ++ "\""

/-- SMSHandler.send_sms: the two intent variants in order, returning true
on the first that does not raise; otherwise the termux fallback, true
exactly when it does not raise. -/
def send_sms (w : World) (s : St) (number text : Option Val) (sim : Val) : Bool × St :=
  let r1 := adbShell w s (smsIntent1 number text sim)
  if !r1.1.1 then (true, r1.2)
  else
    let r2 := adbShell w r1.2 (smsIntent2 number text sim)
    if !r2.1.1 then (true, r2.2)
    else
      let f := run_local w r2.2 (termuxSendCmd number text)
      (!f.1.1, f.2)

/-- The state reached after both SENDTO intent variants were issued. -/
def smsAfterIntents (w : World) (s : St) (number text : Option Val) (sim : Val) : St :=
  (adbShell w (adbShell w s (smsIntent1 number text sim)).2 (smsIntent2 number text sim)).2

/-- A decoded inbound envelope, the result of json.loads on a message. -/
structure Msg where
  action : Option Val
  data : Option Dict
  id : Option Val
deriving DecidableEq

/-- An outbound event handed to WSClient.send by the message handler. -/
inductive Event where
  | send_sms_result (ok : Bool) (id : Option Val)
  | error_event (msg : String) (id : Option Val)
  | open_app_result (ok : Bool) (id : Option Val)
  | adb_shell_result (out : String) (id : Option Val)
  | send_ussd_result (result : UssdResult) (id : Option Val)
  | unknown_action (action : Option Val) (id : Option Val)
deriving DecidableEq

/-- The id field carried by an outbound event. -/
def Event.evid : Event → Option Val
  | .send_sms_result _ i => i
  | .error_event _ i => i
  | .open_app_result _ i => i
  | .adb_shell_result _ i => i
  | .send_ussd_result _ i => i
  | .unknown_action _ i => i

/-- Python truthiness of an optional lookup result. -/
def pyTruthyO : Option Val → Bool
  | none => false
  | some v => truthy v

/-- The four action names the dispatcher recognizes. -/
def recognized (a : Option Val) : Bool :=
  a == some (.vstr "send_sms") || a == some (.vstr "open_app") ||
  a == some (.vstr "adb_shell") || a == some (.vstr "send_ussd")

/-- WSClient._on_message past the json.loads boundary: none models a
payload that failed to parse (dropped with no reply); some is the decoded
envelope.  Each branch hands the events it sends in order. -/
def _on_message (w : World) (s : St) (parsed : Option Msg) : List Event × St :=
  match parsed with
  | none => ([], s)
  | some msg =>
    let data := msg.data.getD []
    let req_id := msg.id
    if msg.action = some (.vstr "send_sms") then
      let r := send_sms w s (dget data "number") (dget data "text") (dgetD data "sim" (.vint 0))
      ([.send_sms_result r.1 req_id], r.2)
    else if msg.action = some (.vstr "open_app") then
      let pkg := dget data "package"
      if pyTruthyO pkg then
        let r := adbShell w s ("monkey -p " ++ pyStr pkg ++ " -c android.intent.category.LAUNCHER 1")
        if r.1.1 then ([.error_event r.1.2 req_id, .open_app_result false req_id], r.2)
        else ([.open_app_result true req_id], r.2)
      else ([.open_app_result false req_id], s)
    else if msg.action = some (.vstr "adb_shell") then
      let cmd := pyStr (some (dgetD data "cmd" (.vstr "")))
      let r := adbShell w s cmd
      ([.adb_shell_result r.1.2 req_id], r.2)
    else if msg.action = some (.vstr "send_ussd") then
      let code := match dget data "code" with
        | some (.vstr c) => some c
        | _ => none
      let simv := asSimOpt (dgetD data "sim" (.vint 0))
      let r := send_ussd_and_read w s code simv
      ([.send_ussd_result r.1 req_id], r.2)
    else ([.unknown_action msg.action req_id], s)

/-- Output of one adbShell call in a world that never raises. -/
def shellOut (w : World) (k : Nat) (cmd : String) : String :=
  if w.clientPresent then (w.clientShell k cmd).2 else (w.localRun k ("adb shell " ++ cmd)).2

/-- Trace entry of one adbShell call in a world that never raises. -/
def shellEvt (w : World) (cmd : String) : ExtCall :=
  if w.clientPresent then .cshell cmd else .lrun ("adb shell " ++ cmd)

/-- Trace entry of one adbPull call in a world that never raises. -/
def pullEvt (w : World) (remote loc : String) : ExtCall :=
  if w.clientPresent then .cpull remote loc else .lrun ("adb pull " ++ remote ++ " " ++ loc)

/-- The text extracted from a parsed capture: the longest harvested block,
none when the parse raised or nothing was harvested. -/
def extractTexts (pr : Option (List UNode)) : Option String :=
  match pr with
  | none => none
  | some nodes => maxByLen (textsOf nodes)

/-- The device interface never raises: every shell, pull and read oracle
succeeds. -/
def NoRaise (w : World) : Prop :=
  (∀ k c, (w.clientShell k c).1 = false) ∧ (∀ k, w.clientPull k = false) ∧
  (∀ k c, (w.localRun k c).1 = false) ∧ (∀ k p, (w.readFile k p).1 = false)

/-- No dumped hierarchy ever yields a candidate with a nonempty label: the
chooser prompt never matches and the ordinal fallback finds nothing. -/
def NoPrompt (w : World) : Prop :=
  ∀ t nodes, w.parseXml t = some nodes → ∀ c ∈ candidatesOf nodes, c.1 = ""

/-- A world whose local commands all raise and whose client is absent. -/
def wAllRaise : World where
  clientPresent := false
  u2Available := false
  clientShell := fun _ _ => (false, "")
  clientPull := fun _ => false
  localRun := fun _ _ => (true, "boom")
  readFile := fun _ _ => (false, "")
  parseXml := fun _ => none
  u2ConnectRaises := fun _ => false
  u2Exists := fun _ _ => (false, false)
  u2ClickRaises := fun _ _ => false
  u2BtnExists := fun _ => (false, false)
  u2BtnCount := fun _ => (false, 0)
  u2BtnClickRaises := fun _ _ => false
  u2Dump := fun _ => (false, "")

/-- A world where every call succeeds with empty output and every parse
raises. -/
def wQuiet : World :=
  { wAllRaise with localRun := fun _ _ => (false, "") }

/-- A world where the first two local commands raise and later ones
succeed: the two SENDTO intents fail, the termux fallback succeeds. -/
def wSmsFb : World :=
  { wAllRaise with localRun := fun k _ => (decide (k < 2), "intent failure") }

/-- A request opening an app, with an id. -/
def msgOpenApp : Msg :=
  ⟨some (.vstr "open_app"), some [("package", .vstr "com.example.app")], some (.vstr "req-1")⟩

/-- A request opening an app, with the id field missing. -/
def msgOpenAppNoId : Msg :=
  ⟨some (.vstr "open_app"), some [("package", .vstr "com.example.app")], none⟩

/-- A send_ussd request with the data field missing. -/
def msgUssdNoData : Msg := ⟨some (.vstr "send_ussd"), none, none⟩

/-- An older inbox record with identifier A. -/
def recA : Dict := [("id", .vstr "A"), ("body", .vstr "old")]

/-- A newer inbox record with identifier B. -/
def recB : Dict := [("id", .vstr "B"), ("body", .vstr "new")]

/-- A record whose id field is present but empty, with a date field. -/
def recEmptyId : Dict := [("id", .vstr ""), ("date", .vstr "1680000000")]

/-- Helper: the seen set after a collection pass is the initial set
followed by the identifiers of the collected records, in order. -/
theorem collectNew_seen_eq (msgs : List Dict) :
    ∀ seen, (collectNew seen msgs).2 = seen ++ (collectNew seen msgs).1.map midOf := by
  induction msgs with
  | nil => intro seen; simp [collectNew]
  | cons m rest ih =>
    intro seen
    by_cases h : midOf m ∈ seen
    · simpa [collectNew, h] using ih seen
    · have := ih (seen ++ [midOf m])
      simp [collectNew, h, this]

/-- Helper: no record with an already-seen identifier is ever collected. -/
theorem collectNew_countP_seen (v : Val) (msgs : List Dict) :
    ∀ seen, v ∈ seen →
      (collectNew seen msgs).1.countP (fun r => midOf r == v) = 0 := by
  induction msgs with
  | nil => intro seen _; simp [collectNew]
  | cons m rest ih =>
    intro seen hv
    by_cases h : midOf m ∈ seen
    · simpa [collectNew, h] using ih seen hv
    · have hne : ¬ (midOf m = v) := fun he => h (he ▸ hv)
      have := ih (seen ++ [midOf m]) (by simp [hv])
      simp [collectNew, h, List.countP_cons, hne, this]

/-- Helper: a fresh identifier occurring among the listed records is
collected exactly once. -/
theorem collectNew_countP_new (v : Val) (msgs : List Dict) :
    ∀ seen, v ∉ seen → v ∈ msgs.map midOf →
      (collectNew seen msgs).1.countP (fun r => midOf r == v) = 1 := by
  induction msgs with
  | nil => intro seen _ hm; simp at hm
  | cons m rest ih =>
    intro seen hv hm
    have hm2 : midOf m = v ∨ v ∈ rest.map midOf := by
      rcases List.mem_map.mp hm with ⟨x, hx, hxe⟩
      rcases List.mem_cons.mp hx with hx1 | hx1
      · exact Or.inl (hx1 ▸ hxe)
      · exact Or.inr (List.mem_map.mpr ⟨x, hx1, hxe⟩)
    by_cases h : midOf m ∈ seen
    · have hne : ¬ (midOf m = v) := fun he => hv (he ▸ h)
      have hm3 : v ∈ rest.map midOf := by
        rcases hm2 with hm2 | hm2
        · exact absurd hm2 hne
        · exact hm2
      simpa [collectNew, h] using ih seen hv hm3
    · by_cases he : midOf m = v
      · subst he
        have h0 := collectNew_countP_seen (midOf m) rest (seen ++ [midOf m]) (by simp)
        simp [collectNew, h, List.countP_cons, h0]
      · have hm3 : v ∈ rest.map midOf := by
          rcases hm2 with hm2 | hm2
          · exact absurd hm2 he
          · exact hm2
        have hv2 : v ∉ seen ++ [midOf m] := by
          simp only [List.mem_append, List.mem_singleton]
          rintro (hc | hc)
          · exact hv hc
          · exact he hc.symm
        have := ih (seen ++ [midOf m]) hv2 hm3
        simp [collectNew, h, List.countP_cons, he, this]

/-- C7: in every poll cycle a record whose identifier is already seen is
not re-emitted; a record with a fresh identifier is emitted exactly once
and its identifier enters the seen set; and after the eviction pass the
seen set never exceeds its ceiling of 2000 identifiers. -/
theorem poll_seen_invariants (seen : List Val) (msgs : List Dict) :
    (∀ m ∈ msgs, midOf m ∈ seen → m ∉ (pollCycle seen msgs).1) ∧
    (∀ m ∈ msgs, midOf m ∉ seen →
      (pollCycle seen msgs).1.countP (fun r => midOf r == midOf m) = 1 ∧
      midOf m ∈ (collectNew seen msgs).2) ∧
    (pollCycle seen msgs).2.length ≤ seenCeiling := by
  refine ⟨?_, ?_, ?_⟩
  · intro m _ hseen hmem
    have h0 := collectNew_countP_seen (midOf m) msgs seen hseen
    have hmem2 : m ∈ (collectNew seen msgs).1 := by
      have : (pollCycle seen msgs).1 = (collectNew seen msgs).1.reverse := rfl
      rw [this, List.mem_reverse] at hmem
      exact hmem
    have := (List.countP_eq_zero.mp h0) m hmem2
    simp at this
  · intro m hm hnot
    have hmap : midOf m ∈ msgs.map midOf := List.mem_map.mpr ⟨m, hm, rfl⟩
    have h1 := collectNew_countP_new (midOf m) msgs seen hnot hmap
    constructor
    · have : (pollCycle seen msgs).1 = (collectNew seen msgs).1.reverse := rfl
      rw [this, List.countP_reverse]
      exact h1
    · have hpos : 0 < (collectNew seen msgs).1.countP (fun r => midOf r == midOf m) := by
        omega
      rcases List.countP_pos_iff.mp hpos with ⟨r, hr, hp⟩
      have hre : midOf r = midOf m := by simpa using hp
      rw [collectNew_seen_eq msgs seen]
      exact List.mem_append.mpr (Or.inr (List.mem_map.mpr ⟨r, hr, hre⟩))
  · show (pollCycle seen msgs).2.length ≤ seenCeiling
    have he : (pollCycle seen msgs).2 =
        if seenCeiling < (collectNew seen msgs).2.length then
          (collectNew seen msgs).2.drop ((collectNew seen msgs).2.length - seenKeep)
        else (collectNew seen msgs).2 := rfl
    rw [he]
    by_cases h : seenCeiling < (collectNew seen msgs).2.length
    · rw [if_pos h, List.length_drop]
      unfold seenCeiling seenKeep at *
      omega
    · rw [if_neg h]
      unfold seenCeiling at *
      omega

/-- C7 witness: a concrete cycle with one already-seen and one fresh record. -/
theorem poll_seen_invariants_witness :
    (recA ∉ (pollCycle [.vstr "A"] [recA, recB]).1) ∧
    ((pollCycle [.vstr "A"] [recA, recB]).1.countP (fun r => midOf r == midOf recB) = 1 ∧
      midOf recB ∈ (collectNew [.vstr "A"] [recA, recB]).2) ∧
    (pollCycle [.vstr "A"] [recA, recB]).2.length ≤ seenCeiling := by
  have h := poll_seen_invariants [.vstr "A"] [recA, recB]
  exact ⟨h.1 recA (by decide) (by decide),
         h.2.1 recB (by simp [recB]) (by decide),
         h.2.2⟩

/-- C6 counterexample: two fresh records listed A (old) then B (new) in one
cycle are emitted B then A, not in listing (chronological) order A then B. -/
theorem poll_order_counterexample :
    (pollCycle [] [recA, recB]).1 = [recB, recA] ∧
    (pollCycle [] [recA, recB]).1 ≠ [recA, recB] ∧ recA ≠ recB := by decide

/-- C6 amended: within a cycle the fresh records are emitted in reverse of
the listing order, so with a backend that lists newest first — b (new)
then a (old) — the events come out oldest first: a then b. -/
theorem poll_emits_reverse_of_listing (seen : List Val) (a b : Dict)
    (ha : midOf a ∉ seen) (hb : midOf b ∉ seen) (hab : midOf a ≠ midOf b) :
    (pollCycle seen [b, a]).1 = [a, b] := by
  have hm : midOf a ∉ seen ++ [midOf b] := by
    simp only [List.mem_append, List.mem_singleton]
    rintro (hc | hc)
    · exact ha hc
    · exact hab hc
  simp [pollCycle, collectNew, hb, hm]

/-- C6 amended witness: the concrete newest-first listing. -/
theorem poll_emits_reverse_of_listing_witness :
    (pollCycle [] [recB, recA]).1 = [recA, recB] :=
  poll_emits_reverse_of_listing [] recA recB (by decide) (by decide) (by decide)

/-- C8 counterexample: a record whose id field is present but empty gets
its date as identifier, so presence of the id field alone does not decide
the identifier. -/
theorem record_id_priority_counterexample :
    dget recEmptyId "id" = some (.vstr "") ∧
    midOf recEmptyId = .vstr "1680000000" ∧
    (Val.vstr "1680000000") ≠ .vstr "" := by decide

/-- C8 amended: the identifier is the first truthy value among the id,
date and timestamp fields, in that order, and otherwise the json.dumps
serialization of the record; a present but falsy field is skipped. -/
theorem record_id_truthy_priority (m : Dict) :
    (∀ v, dget m "id" = some v → truthy v = true → midOf m = v) ∧
    (pyTruthyO (dget m "id") = false →
      ∀ v, dget m "date" = some v → truthy v = true → midOf m = v) ∧
    (pyTruthyO (dget m "id") = false → pyTruthyO (dget m "date") = false →
      ∀ v, dget m "timestamp" = some v → truthy v = true → midOf m = v) ∧
    (pyTruthyO (dget m "id") = false → pyTruthyO (dget m "date") = false →
      pyTruthyO (dget m "timestamp") = false → midOf m = .vstr (dumps m)) := by
  refine ⟨?_, ?_, ?_, ?_⟩
  · intro v hv ht
    simp [midOf, pyOr, hv, ht]
  · intro h0 v hv ht
    cases hid : dget m "id" with
    | none => simp [midOf, pyOr, hid, hv, ht]
    | some u =>
      rw [hid] at h0
      simp only [pyTruthyO] at h0
      simp [midOf, pyOr, hid, h0, hv, ht]
  · intro h0 h1 v hv ht
    cases hid : dget m "id" with
    | none =>
      cases hdt : dget m "date" with
      | none => simp [midOf, pyOr, hid, hdt, hv, ht]
      | some u =>
        rw [hdt] at h1
        simp only [pyTruthyO] at h1
        simp [midOf, pyOr, hid, hdt, h1, hv, ht]
    | some u =>
      rw [hid] at h0
      simp only [pyTruthyO] at h0
      cases hdt : dget m "date" with
      | none => simp [midOf, pyOr, hid, hdt, h0, hv, ht]
      | some u2 =>
        rw [hdt] at h1
        simp only [pyTruthyO] at h1
        simp [midOf, pyOr, hid, hdt, h0, h1, hv, ht]
  · intro h0 h1 h2
    cases hid : dget m "id" with
    | none =>
      cases hdt : dget m "date" with
      | none =>
        cases hts : dget m "timestamp" with
        | none => simp [midOf, pyOr, hid, hdt, hts]
        | some u =>
          rw [hts] at h2
          simp only [pyTruthyO] at h2
          simp [midOf, pyOr, hid, hdt, hts, h2]
      | some u =>
        rw [hdt] at h1
        simp only [pyTruthyO] at h1
        cases hts : dget m "timestamp" with
        | none => simp [midOf, pyOr, hid, hdt, hts, h1]
        | some u2 =>
          rw [hts] at h2
          simp only [pyTruthyO] at h2
          simp [midOf, pyOr, hid, hdt, hts, h1, h2]
    | some u =>
      rw [hid] at h0
      simp only [pyTruthyO] at h0
      cases hdt : dget m "date" with
      | none =>
        cases hts : dget m "timestamp" with
        | none => simp [midOf, pyOr, hid, hdt, hts, h0]
        | some u2 =>
          rw [hts] at h2
          simp only [pyTruthyO] at h2
          simp [midOf, pyOr, hid, hdt, hts, h0, h2]
      | some u2 =>
        rw [hdt] at h1
        simp only [pyTruthyO] at h1
        cases hts : dget m "timestamp" with
        | none => simp [midOf, pyOr, hid, hdt, hts, h0, h1]
        | some u3 =>
          rw [hts] at h2
          simp only [pyTruthyO] at h2
          simp [midOf, pyOr, hid, hdt, hts, h0, h1, h2]

/-- C8 amended witness: the empty-id record falls through to its date. -/
theorem record_id_truthy_priority_witness :
    midOf recEmptyId = .vstr "1680000000" :=
  (record_id_truthy_priority recEmptyId).2.1 (by decide) (.vstr "1680000000") (by decide) (by decide)

/-- Helper: a safe byte is not the percent byte. -/
theorem isSafeByte_ne37 (b : Nat) (h : isSafeByte b = true) : b ≠ 37 := by
  simp only [isSafeByte, Bool.or_eq_true, Bool.and_eq_true, decide_eq_true_eq,
    beq_iff_eq] at h
  omega

/-- Helper: decoding an uppercase hexadecimal digit of a nibble recovers it. -/
theorem hexVal_hexDigitU (n : Nat) (h : n < 16) : hexVal (hexDigitU n) = some n := by
  rcases Nat.lt_or_ge n 10 with h10 | h10
  · have e : hexDigitU n = 48 + n := if_pos h10
    have c1 : 48 ≤ 48 + n := by omega
    have c2 : 48 + n ≤ 57 := by omega
    simp [hexVal, e, c1, c2]
    try omega
  · have e : hexDigitU n = 55 + n := if_neg (by omega)
    have c0 : ¬ (55 + n ≤ 57) := by omega
    have c1 : 65 ≤ 55 + n := by omega
    have c2 : 55 + n ≤ 70 := by omega
    simp [hexVal, e, c0, c1, c2]
    try omega

/-- Helper: the decoder passes over a byte that is not the percent byte. -/
theorem unquoteBytes_cons_ne (b : Nat) (l : List Nat) (hb : b ≠ 37) :
    unquoteBytes (b :: l) = b :: unquoteBytes l := by
  rw [unquoteBytes.eq_def]
  split <;> simp_all

/-- Helper: percent-decoding inverts percent-encoding on byte lists. -/
theorem quote_unquote_roundtrip (bs : List Nat) (h : ∀ b ∈ bs, b < 256) :
    unquoteBytes (quoteBytes bs) = bs := by
  induction bs with
  | nil => rfl
  | cons b rest ih =>
    have hb : b < 256 := h b (List.mem_cons_self b rest)
    have hr : ∀ x ∈ rest, x < 256 := fun x hx => h x (List.mem_cons_of_mem b hx)
    by_cases hs : isSafeByte b = true
    · have hb37 : b ≠ 37 := isSafeByte_ne37 b hs
      rw [quoteBytes, if_pos hs, List.singleton_append, unquoteBytes_cons_ne b _ hb37, ih hr]
    · have h1 : hexVal (hexDigitU (b / 16)) = some (b / 16) := hexVal_hexDigitU _ (by omega)
      have h2 : hexVal (hexDigitU (b % 16)) = some (b % 16) := hexVal_hexDigitU _ (by omega)
      have hbe : 16 * (b / 16) + b % 16 = b := by omega
      rw [quoteBytes, if_neg hs]
      simp only [List.cons_append, List.nil_append]
      rw [unquoteBytes, h1, h2]
      simp only [hbe, ih hr]

/-- Helper: a safe byte is below 128. -/
theorem isSafeByte_lt (b : Nat) (h : isSafeByte b = true) : b < 128 := by
  simp only [isSafeByte, Bool.or_eq_true, Bool.and_eq_true, decide_eq_true_eq,
    beq_iff_eq] at h
  omega

/-- Helper: the hexadecimal digit of a nibble is plain ASCII. -/
theorem hexDigitU_lt (n : Nat) (h : n < 16) : hexDigitU n < 128 := by
  unfold hexDigitU
  split <;> omega

/-- Helper: every byte of an encoded string is below 128 (plain ASCII). -/
theorem quoteBytes_all_lt (bs : List Nat) (h : ∀ b ∈ bs, b < 256) :
    ∀ c ∈ quoteBytes bs, c < 128 := by
  induction bs with
  | nil => intro c hc; simp [quoteBytes] at hc
  | cons b rest ih =>
    have hb : b < 256 := h b (List.mem_cons_self b rest)
    have hr : ∀ x ∈ rest, x < 256 := fun x hx => h x (List.mem_cons_of_mem b hx)
    intro c hc
    rw [quoteBytes] at hc
    rcases List.mem_append.mp hc with hc1 | hc1
    · by_cases hs : isSafeByte b = true
      · rw [if_pos hs] at hc1
        simp only [List.mem_singleton] at hc1
        exact hc1 ▸ isSafeByte_lt b hs
      · rw [if_neg hs] at hc1
        simp only [List.mem_cons, List.not_mem_nil, or_false] at hc1
        rcases hc1 with rfl | rfl | rfl
        · omega
        · exact hexDigitU_lt _ (by omega)
        · exact hexDigitU_lt _ (by omega)
    · exact ih hr c hc1

/-- Helper: a character built from a small byte reads back as that byte. -/
theorem char_toNat_ofNat (n : Nat) (h : n < 128) : (Char.ofNat n).toNat = n := by
  have hv : n.isValidChar := Or.inl (by omega)
  simp [Char.ofNat, hv, Char.ofNatAux, Char.toNat]
  rfl

/-- C9: percent-decoding the encoded dial string of _encode_ussd yields
exactly the UTF-8 bytes of the original code, for every code string (in
particular codes containing the hash terminator, which is escaped). -/
theorem encode_ussd_roundtrip (code : String) :
    unquoteBytes ((_encode_ussd code).toList.map Char.toNat) =
      code.toUTF8.toList.map (fun b => b.toNat) := by
  have hlt : ∀ b ∈ code.toUTF8.toList.map (fun b => b.toNat), b < 256 := by
    intro b hb
    rcases List.mem_map.mp hb with ⟨u, _, rfl⟩
    exact u.toNat_lt
  have h1 : (_encode_ussd code).toList =
      (quoteBytes (code.toUTF8.toList.map (fun b => b.toNat))).map Char.ofNat := rfl
  rw [h1, List.map_map]
  have h2 : (quoteBytes (code.toUTF8.toList.map (fun b => b.toNat))).map (Char.toNat ∘ Char.ofNat) =
      quoteBytes (code.toUTF8.toList.map (fun b => b.toNat)) := by
    have := quoteBytes_all_lt (code.toUTF8.toList.map (fun b => b.toNat)) hlt
    calc (quoteBytes (code.toUTF8.toList.map (fun b => b.toNat))).map (Char.toNat ∘ Char.ofNat)
        = (quoteBytes (code.toUTF8.toList.map (fun b => b.toNat))).map id := by
          apply List.map_congr_left
          intro a ha
          exact char_toNat_ofNat a (this a ha)
      _ = quoteBytes (code.toUTF8.toList.map (fun b => b.toNat)) := List.map_id _
  rw [h2]
  exact quote_unquote_roundtrip _ hlt

/-- C2: a payload that fails to parse produces no reply and leaves the
handler state untouched; the receive loop continues. -/
theorem on_message_malformed_silent (w : World) (s : St) :
    _on_message w s none = ([], s) := rfl

/-- C1 counterexample: an open_app envelope whose launch command raises
produces two outbound events (an error event and the open_app_result),
not exactly one. -/
theorem on_message_open_app_two_events :
    ((_on_message wAllRaise ⟨0, []⟩ (some msgOpenApp)).1 =
      [.error_event "boom" (some (.vstr "req-1")),
       .open_app_result false (some (.vstr "req-1"))]) ∧
    ((_on_message wAllRaise ⟨0, []⟩ (some msgOpenApp)).1).length ≠ 1 := by decide

/-- C1 amended: every parsed envelope yields at least one and at most two
replies, all carrying the request id; an unrecognized action yields
exactly the unknown_action echo with the request id; and every action
other than open_app (whose launch-failure branch sends an extra error
event first) yields exactly one reply. -/
theorem on_message_reply_correlation (w : World) (s : St) (msg : Msg) :
    1 ≤ ((_on_message w s (some msg)).1).length ∧
    ((_on_message w s (some msg)).1).length ≤ 2 ∧
    (∀ e ∈ (_on_message w s (some msg)).1, e.evid = msg.id) ∧
    (recognized msg.action = false →
      (_on_message w s (some msg)).1 = [.unknown_action msg.action msg.id]) ∧
    (msg.action ≠ some (.vstr "open_app") → ((_on_message w s (some msg)).1).length = 1) := by
  obtain ⟨a, dta, i⟩ := msg
  by_cases h1 : a = some (.vstr "send_sms")
  · subst h1
    simp [_on_message, recognized, Event.evid]
  · by_cases h2 : a = some (.vstr "open_app")
    · subst h2
      by_cases hp : pyTruthyO (dget (dta.getD []) "package") = true
      · by_cases hr : (adbShell w s ("monkey -p " ++ pyStr (dget (dta.getD []) "package") ++
            " -c android.intent.category.LAUNCHER 1")).1.1 = true
        · simp [_on_message, recognized, Event.evid, hp, hr]
        · simp [_on_message, recognized, Event.evid, hp, hr]
      · simp [_on_message, recognized, Event.evid, hp]
    · by_cases h3 : a = some (.vstr "adb_shell")
      · subst h3
        simp [_on_message, recognized, Event.evid]
      · by_cases h4 : a = some (.vstr "send_ussd")
        · subst h4
          simp [_on_message, recognized, Event.evid]
        · simp [_on_message, recognized, Event.evid, beq_iff_eq, h1, h2, h3, h4]

/-- C1 amended witness: an unrecognized action echoes exactly once with
the request id. -/
theorem on_message_reply_correlation_witness :
    (_on_message wAllRaise ⟨0, []⟩
        (some ⟨some (.vstr "bogus"), none, some (.vstr "r9")⟩)).1 =
      [.unknown_action (some (.vstr "bogus")) (some (.vstr "r9"))] :=
  (on_message_reply_correlation wAllRaise ⟨0, []⟩
    ⟨some (.vstr "bogus"), none, some (.vstr "r9")⟩).2.2.2.1 (by decide)

/-- C10 counterexample: a recognized open_app envelope with a missing id
whose launch command raises produces two replies, not exactly one. -/
theorem on_message_missing_id_counterexample :
    recognized msgOpenAppNoId.action = true ∧ msgOpenAppNoId.id = none ∧
    ((_on_message wAllRaise ⟨0, []⟩ (some msgOpenAppNoId)).1).length = 2 ∧
    ((_on_message wAllRaise ⟨0, []⟩ (some msgOpenAppNoId)).1).length ≠ 1 := by decide

/-- C10 amended: a recognized envelope with a missing id or data field
still gets replies: at least one event, every one carrying the (null)
request id, exactly one unless the action is open_app and its launch
command raises; with data missing, the send_sms branch replies with all
fields defaulted (numbers and text absent, sim defaulting to 0) and the
send_ussd branch replies with the empty-code error result. -/
theorem on_message_missing_fields (w : World) (s : St) (msg : Msg)
    (hrec : recognized msg.action = true) (hmiss : msg.id = none ∨ msg.data = none) :
    1 ≤ ((_on_message w s (some msg)).1).length ∧
    (∀ e ∈ (_on_message w s (some msg)).1, e.evid = msg.id) ∧
    (msg.action ≠ some (.vstr "open_app") → ((_on_message w s (some msg)).1).length = 1) ∧
    (msg.data = none → msg.action = some (.vstr "send_sms") →
      (_on_message w s (some msg)).1 =
        [.send_sms_result (send_sms w s none none (.vint 0)).1 msg.id]) ∧
    (msg.data = none → msg.action = some (.vstr "send_ussd") →
      (_on_message w s (some msg)).1 =
        [.send_ussd_result ⟨false, some "empty code", none, none⟩ msg.id]) := by
  obtain ⟨a, dta, i⟩ := msg
  by_cases h1 : a = some (.vstr "send_sms")
  · subst h1
    refine ⟨?_, ?_, ?_, ?_, ?_⟩
    · simp [_on_message]
    · simp [_on_message, Event.evid]
    · intro _; simp [_on_message]
    · intro hd _
      subst hd
      simp [_on_message, dget, dgetD]
    · intro _ hact
      simp at hact
  · by_cases h2 : a = some (.vstr "open_app")
    · subst h2
      refine ⟨?_, ?_, ?_, ?_, ?_⟩
      · by_cases hp : pyTruthyO (dget (dta.getD []) "package") = true
        · by_cases hr : (adbShell w s ("monkey -p " ++ pyStr (dget (dta.getD []) "package") ++
              " -c android.intent.category.LAUNCHER 1")).1.1 = true
          · simp [_on_message, hp, hr]
          · simp [_on_message, hp, hr]
        · simp [_on_message, hp]
      · by_cases hp : pyTruthyO (dget (dta.getD []) "package") = true
        · by_cases hr : (adbShell w s ("monkey -p " ++ pyStr (dget (dta.getD []) "package") ++
              " -c android.intent.category.LAUNCHER 1")).1.1 = true
          · simp [_on_message, hp, hr, Event.evid]
          · simp [_on_message, hp, hr, Event.evid]
        · simp [_on_message, hp, Event.evid]
      · intro hne; simp at hne
      · intro _ hact; simp at hact
      · intro _ hact; simp at hact
    · by_cases h3 : a = some (.vstr "adb_shell")
      · subst h3
        refine ⟨?_, ?_, ?_, ?_, ?_⟩
        · simp [_on_message]
        · simp [_on_message, Event.evid]
        · intro _; simp [_on_message]
        · intro _ hact; simp at hact
        · intro _ hact; simp at hact
      · by_cases h4 : a = some (.vstr "send_ussd")
        · subst h4
          refine ⟨?_, ?_, ?_, ?_, ?_⟩
          · simp [_on_message]
          · simp [_on_message, Event.evid]
          · intro _; simp [_on_message]
          · intro _ hact; simp at hact
          · intro hd _
            subst hd
            simp [_on_message, dget, dgetD, asSimOpt, send_ussd_and_read]
        · exfalso
          simp [recognized, beq_iff_eq, h1, h2, h3, h4] at hrec

/-- C10 amended witness: a send_ussd envelope with no id and no data
replies exactly once, with a null id and the empty-code error result. -/
theorem on_message_missing_fields_witness :
    (_on_message wAllRaise ⟨0, []⟩ (some msgUssdNoData)).1 =
      [.send_ussd_result ⟨false, some "empty code", none, none⟩ none] := by
  have h := on_message_missing_fields wAllRaise ⟨0, []⟩ msgUssdNoData (by decide) (Or.inl rfl)
  exact h.2.2.2.2 rfl rfl

/-- C3: an empty or missing ussd code yields ok false with the populated
error string, before any device interaction: the state (call counter and
trace) is returned untouched, so no dial intent was issued. -/
theorem send_ussd_empty_code (w : World) (s : St) (code : Option String) (sim : Option Int)
    (h : code = none ∨ code = some "") :
    (send_ussd_and_read w s code sim).1 = ⟨false, some "empty code", none, none⟩ ∧
    (send_ussd_and_read w s code sim).2 = s := by
  rcases h with h | h <;> subst h <;> exact ⟨rfl, rfl⟩

/-- C3 witness: the concrete empty code. -/
theorem send_ussd_empty_code_witness :
    (send_ussd_and_read wAllRaise ⟨0, []⟩ (some "") (some 0)).1 =
      ⟨false, some "empty code", none, none⟩ ∧
    (send_ussd_and_read wAllRaise ⟨0, []⟩ (some "") (some 0)).2 = (⟨0, []⟩ : St) :=
  send_ussd_empty_code wAllRaise ⟨0, []⟩ (some "") (some 0) (Or.inr rfl)

/-- C5: when both SENDTO intent variants raise, the termux fallback is
attempted (it is the next recorded call) and send_sms returns true exactly
when the fallback does not raise; the dispatcher wraps exactly that value
in the single send_sms_result reply carrying the request id. -/
theorem send_sms_fallback_result (w : World) (s : St) (number text : Option Val) (sim : Val)
    (h1 : (adbShell w s (smsIntent1 number text sim)).1.1 = true)
    (h2 : (adbShell w (adbShell w s (smsIntent1 number text sim)).2
      (smsIntent2 number text sim)).1.1 = true) :
    (send_sms w s number text sim).1 =
      !(w.localRun (smsAfterIntents w s number text sim).k (termuxSendCmd number text)).1 ∧
    (send_sms w s number text sim).2.tr =
      (smsAfterIntents w s number text sim).tr ++ [.lrun (termuxSendCmd number text)] ∧
    ∀ (d : Dict) (rid : Option Val),
      (_on_message w s (some ⟨some (.vstr "send_sms"), some d, rid⟩)).1 =
        [.send_sms_result
          (send_sms w s (dget d "number") (dget d "text") (dgetD d "sim" (.vint 0))).1 rid] := by
  refine ⟨?_, ?_, ?_⟩
  · simp [send_sms, h1, h2, smsAfterIntents, run_local]
  · simp [send_sms, h1, h2, smsAfterIntents, run_local, bump]
  · intro d rid
    simp [_on_message]

/-- C5 witness: a world where both intents raise and the fallback
succeeds, with the scenario payload number 123, text hi, sim 1. -/
theorem send_sms_fallback_result_witness :
    (send_sms wSmsFb ⟨0, []⟩ (some (.vstr "123")) (some (.vstr "hi")) (.vint 1)).1 = true := by
  have h := send_sms_fallback_result wSmsFb ⟨0, []⟩ (some (.vstr "123")) (some (.vstr "hi"))
    (.vint 1) (by decide) (by decide)
  exact h.1.trans (by decide)

/-- Helper: one local run in a world that never raises. -/
theorem run_local_ok (w : World) (hw : NoRaise w) (s : St) (cmd : String) :
    run_local w s cmd = ((false, (w.localRun s.k cmd).2), bump s (.lrun cmd)) := by
  have h : w.localRun s.k cmd = (false, (w.localRun s.k cmd).2) :=
    Prod.ext_iff.mpr ⟨hw.2.2.1 s.k cmd, rfl⟩
  unfold run_local
  rw [h]

/-- Helper: one local file read in a world that never raises. -/
theorem readLocalFile_ok (w : World) (hw : NoRaise w) (s : St) (path : String) :
    readLocalFile w s path = ((false, (w.readFile s.k path).2), bump s (.fread path)) := by
  have h : w.readFile s.k path = (false, (w.readFile s.k path).2) :=
    Prod.ext_iff.mpr ⟨hw.2.2.2 s.k path, rfl⟩
  unfold readLocalFile
  rw [h]

/-- Helper: one shell call in a world that never raises: one counted call,
one trace entry, the output of whichever backend is present. -/
theorem adbShell_ok (w : World) (hw : NoRaise w) (s : St) (cmd : String) :
    adbShell w s cmd = ((false, shellOut w s.k cmd), bump s (shellEvt w cmd)) := by
  by_cases hc : w.clientPresent
  · have h := hw.1 s.k cmd
    simp [adbShell, shellOut, shellEvt, hc, h]
  · simp [adbShell, shellOut, shellEvt, hc, run_local_ok w hw]

/-- Helper: one pull in a world that never raises. -/
theorem adbPull_ok (w : World) (hw : NoRaise w) (s : St) (remote loc : String) :
    adbPull w s remote loc = (false, bump s (pullEvt w remote loc)) := by
  by_cases hc : w.clientPresent
  · have h := hw.2.1 s.k
    simp [adbPull, pullEvt, hc, h]
  · have h := hw.2.2.1 s.k ("adb pull " ++ remote ++ " " ++ loc)
    simp [adbPull, pullEvt, hc, run_local, h]

/-- Helper: fetching a dumped hierarchy in a world that never raises: the
pull then the local read succeed, no cat fallback fires. -/
theorem getXmlText_ok (w : World) (hw : NoRaise w) (s : St) :
    getXmlText w s = ((false, (w.readFile (s.k + 1) localTmp).2),
      bump (bump s (pullEvt w "/sdcard/ussd_dump.xml" localTmp)) (.fread localTmp)) := by
  simp [getXmlText, adbPull_ok w hw, readLocalFile_ok w hw, bump]

/-- Helper: the label scan finds nothing among candidates with empty
labels. -/
theorem findTarget_all_empty (sim : Option Int) (cands : List (String × String))
    (h : ∀ c ∈ cands, c.1 = "") : findTarget sim cands = .ok none := by
  induction cands with
  | nil => rfl
  | cons c rest ih =>
    have hc : c.1 = "" := h c (List.mem_cons_self _ _)
    have hr : ∀ x ∈ rest, x.1 = "" := fun x hx => h x (List.mem_cons_of_mem _ hx)
    obtain ⟨t, b⟩ := c
    simp only at hc
    subst hc
    simp [findTarget, ih hr]

/-- Helper: target selection yields nothing when every candidate label is
empty: the label scan misses and the ordinal pick has no nonempty
candidates. -/
theorem pickTarget_all_empty (sim : Option Int) (cands : List (String × String))
    (h : ∀ c ∈ cands, c.1 = "") : pickTarget sim cands = .ok none := by
  unfold pickTarget
  rw [findTarget_all_empty sim cands h]
  by_cases hc : cands.isEmpty
  · simp [hc]
  · have hf : cands.filter (fun c => !(c.1 == "")) = [] := by
      rw [List.filter_eq_nil_iff]
      intro a ha
      simp [h a ha]
    simp [hc, hf]

/-- Helper: one resolution attempt in a world that never raises and never
shows a prompt: the dump is fetched and parsed, nothing is selected, no
tap is issued; raw_ui becomes the fetched text. -/
theorem resolveAttempt_ok (w : World) (hw : NoRaise w) (hp : NoPrompt w) (sim : Option Int)
    (s : St) (raw : Option String) :
    resolveAttempt w sim s raw =
      (false, some ((w.readFile (s.k + 1 + 1) localTmp).2),
        bump (bump (bump s (shellEvt w dumpCmd)) (pullEvt w "/sdcard/ussd_dump.xml" localTmp))
          (.fread localTmp)) := by
  unfold resolveAttempt
  rw [adbShell_ok w hw]
  simp only [Bool.false_eq_true, if_false]
  rw [getXmlText_ok w hw]
  simp only [Bool.false_eq_true, if_false, bump]
  cases hx : w.parseXml ((w.readFile (s.k + 1 + 1) localTmp).2) with
  | none => simp [bump]
  | some nodes =>
    have hno := hp _ nodes hx
    simp [pickTarget_all_empty sim (candidatesOf nodes) hno, bump]

/-- Helper: one unrolling of the resolution retry loop under the same
hypotheses. -/
theorem resolveLoop_succ (w : World) (hw : NoRaise w) (hp : NoPrompt w) (sim : Option Int)
    (n : Nat) (s : St) (raw : Option String) :
    resolveLoop w sim (n + 1) s raw =
      resolveLoop w sim n
        (bump (bump (bump s (shellEvt w dumpCmd)) (pullEvt w "/sdcard/ussd_dump.xml" localTmp))
          (.fread localTmp))
        (some ((w.readFile (s.k + 1 + 1) localTmp).2)) := by
  rw [resolveLoop, resolveAttempt_ok w hw hp sim]
  simp

/-- Helper: the final capture in a world that never raises: one dump, one
pull, one read, the longest harvested text of the parse. -/
theorem finalCapture_ok (w : World) (hw : NoRaise w) (s : St) (raw : Option String) :
    finalCapture w s raw =
      ((some ((w.readFile (s.k + 1 + 1) localTmp).2),
        extractTexts (w.parseXml ((w.readFile (s.k + 1 + 1) localTmp).2))),
       bump (bump (bump s (shellEvt w dumpCmd)) (pullEvt w "/sdcard/ussd_dump.xml" localTmp))
         (.fread localTmp)) := by
  unfold finalCapture
  rw [adbShell_ok w hw]
  simp only [Bool.false_eq_true, if_false]
  rw [getXmlText_ok w hw]
  simp only [Bool.false_eq_true, if_false, bump]
  cases hx : w.parseXml ((w.readFile (s.k + 1 + 1) localTmp).2) with
  | none => simp [extractTexts, bump, hx]
  | some nodes => simp [extractTexts, bump, hx]

/-- C4: for a nonempty code, a device interface that never raises, the
dump-based automation backend, and no SIM-choice prompt ever matching,
the resolution step runs exactly its capped four attempts (the first four
dump commands of the trace), the automation then proceeds to the response
capture (the fifth dump), and the call returns ok true with no error;
ussd_text is whatever the final capture extracts — possibly null, which
is not reported as failure. -/
theorem send_ussd_no_prompt_proceeds (w : World) (c : String) (sim : Option Int)
    (hw : NoRaise w) (hp : NoPrompt w) (hu : w.u2Available = false) (hc : c ≠ "") :
    (send_ussd_and_read w ⟨0, []⟩ (some c) sim).1.ok = true ∧
    (send_ussd_and_read w ⟨0, []⟩ (some c) sim).1.error = none ∧
    (send_ussd_and_read w ⟨0, []⟩ (some c) sim).1.ussd_text =
      extractTexts (w.parseXml ((w.readFile 17 localTmp).2)) ∧
    (send_ussd_and_read w ⟨0, []⟩ (some c) sim).2.tr =
      [shellEvt w (ussdIntent1 c), shellEvt w (ussdIntent2 c sim), shellEvt w (ussdIntent3 c sim),
       shellEvt w dumpCmd, pullEvt w "/sdcard/ussd_dump.xml" localTmp, .fread localTmp,
       shellEvt w dumpCmd, pullEvt w "/sdcard/ussd_dump.xml" localTmp, .fread localTmp,
       shellEvt w dumpCmd, pullEvt w "/sdcard/ussd_dump.xml" localTmp, .fread localTmp,
       shellEvt w dumpCmd, pullEvt w "/sdcard/ussd_dump.xml" localTmp, .fread localTmp,
       shellEvt w dumpCmd, pullEvt w "/sdcard/ussd_dump.xml" localTmp, .fread localTmp] := by
  have hcb : (c == "") = false := by
    simp [hc]
  have hdial : dialLoop w [ussdIntent1 c, ussdIntent2 c sim, ussdIntent3 c sim] ⟨0, []⟩ false =
      (true, bump (bump (bump ⟨0, []⟩ (shellEvt w (ussdIntent1 c)))
        (shellEvt w (ussdIntent2 c sim))) (shellEvt w (ussdIntent3 c sim))) := by
    simp [dialLoop, adbShell_ok w hw]
  have hmain : send_ussd_and_read w ⟨0, []⟩ (some c) sim =
      (⟨true, none, some ((w.readFile 17 localTmp).2),
        extractTexts (w.parseXml ((w.readFile 17 localTmp).2))⟩,
       ⟨18,
        [shellEvt w (ussdIntent1 c), shellEvt w (ussdIntent2 c sim), shellEvt w (ussdIntent3 c sim),
         shellEvt w dumpCmd, pullEvt w "/sdcard/ussd_dump.xml" localTmp, .fread localTmp,
         shellEvt w dumpCmd, pullEvt w "/sdcard/ussd_dump.xml" localTmp, .fread localTmp,
         shellEvt w dumpCmd, pullEvt w "/sdcard/ussd_dump.xml" localTmp, .fread localTmp,
         shellEvt w dumpCmd, pullEvt w "/sdcard/ussd_dump.xml" localTmp, .fread localTmp,
         shellEvt w dumpCmd, pullEvt w "/sdcard/ussd_dump.xml" localTmp, .fread localTmp]⟩) := by
    rw [send_ussd_and_read]
    rw [hcb]
    simp only [Bool.false_eq_true, if_false, hdial, hu]
    rw [show (4 : Nat) = 3 + 1 from rfl, resolveLoop_succ w hw hp sim]
    rw [show (3 : Nat) = 2 + 1 from rfl, resolveLoop_succ w hw hp sim]
    rw [show (2 : Nat) = 1 + 1 from rfl, resolveLoop_succ w hw hp sim]
    rw [show (1 : Nat) = 0 + 1 from rfl, resolveLoop_succ w hw hp sim]
    rw [resolveLoop]
    simp only [bump]
    rw [finalCapture_ok w hw]
    simp [bump, List.append_assoc]
  rw [hmain]
  exact ⟨rfl, rfl, rfl, rfl⟩

/-- C4 witness: a quiet world — every call succeeds with empty output,
every parse raises — on the scenario code; ok is true while ussd_text is
null. -/
theorem send_ussd_no_prompt_proceeds_witness :
    (send_ussd_and_read wQuiet ⟨0, []⟩ (some "*123#") (some 0)).1.ok = true ∧
    (send_ussd_and_read wQuiet ⟨0, []⟩ (some "*123#") (some 0)).1.ussd_text = none := by
  have h := send_ussd_no_prompt_proceeds wQuiet "*123#" (some 0)
    ⟨fun _ _ => rfl, fun _ => rfl, fun _ _ => rfl, fun _ _ => rfl⟩
    (fun t nodes hx => by simp [wQuiet, wAllRaise] at hx)
    rfl (by decide)
  exact ⟨h.1, h.2.2.1.trans rfl⟩

end BridgeService
